import Mathlib

/-!
# GoMySQLCURD: the users CRUD service of `main.go`

A shallow embedding of `src/main.go`.  The Go program keeps one global `*sql.DB`
and maps five HTTP routes onto five SQL statements.  The embedding has three
layers:

* the external collaborators, modelled just far enough to run the source:
  the `users` table behind `database/sql` (`Db`, `Exec`, `Query`, `QueryRow`,
  `scanRow`), the standard logger (`World.Println`), `encoding/json` for the
  values the handlers send (`Json` and the `marshal*` functions), and the part
  of `gin.Context` the handlers touch (`Context`);
* the storage accessors `insertUserdb`, `getAllUsers`, `getaUserdb`,
  `updateUserdb`, `removeUserdb`, statement by statement;
* the request handlers `getAllUsersHandler`, `getUserHandler`,
  `addNewUserHandler`, `updateUserHandler`, `removeUserHandler`.

Every database call takes two arguments that stand for what the repository
does not fix.  `coll : Collation` is the collation of column `name`: the
program sends `name = ?` to MySQL, which compares the stored name with the
bound parameter under that collation (case-insensitively under the default
ones).  `fault : Option String` is the driver outcome: `some e` means the
driver reports the error `e` for that statement (connection loss, constraint
violation, ...), `none` means the statement is executed.  Go's `error` is
`Option String` (`none` is `nil`), a Go pointer `*T` is `Option T`.
-/

namespace GoMySQLCURD

/-! ## Data model -/

/-- User struct (`main.go` 17-21). -/
structure User where
  Name : String
  Email : String
  Location : String
deriving DecidableEq, Repr

/-- Response for a successful operation (`main.go` 24-26), JSON key `info`. -/
structure infoResponse where
  Message : String
deriving DecidableEq, Repr

/-- Response for a failed operation (`main.go` 29-31), JSON key `error`. -/
structure errorResponse where
  Message : String
deriving DecidableEq, Repr

/-- One stored row of table `users`, in the column order the source scans:
the numeric id, then name, email and location.  `none` is SQL `NULL` (the
schema is not part of the repository, so a stored cell may be `NULL`). -/
structure Row where
  id : Int
  name : Option String
  email : Option String
  location : Option String
deriving DecidableEq, Repr

/-- The table `users`: its rows in the order the storage returns them, and the
next value of the auto-increment id.  Nothing here forces names to be
distinct: the program relies on whatever the table enforces. -/
structure Db where
  rows : List Row
  nextId : Int
deriving DecidableEq, Repr

/-- A Go slice `[]α`: the `nil` slice, or a non-nil slice with its elements. -/
inductive Slice (α : Type) where
  | nil : Slice α
  | elems (xs : List α) : Slice α
deriving DecidableEq, Repr

/-- Go `append(s, x)`: appending to the nil slice allocates. -/
def Slice.append {α : Type} : Slice α → α → Slice α
  | .nil, x => .elems [x]
  | .elems xs, x => .elems (xs ++ [x])

/-- The elements of a slice; the nil slice has none. -/
def Slice.toList {α : Type} : Slice α → List α
  | .nil => []
  | .elems xs => xs

/-- Go `len(s)`. -/
def Slice.len {α : Type} (s : Slice α) : Nat := s.toList.length

/-- A JSON document, as `encoding/json` produces it for the values sent. -/
inductive Json where
  | null : Json
  | str (s : String) : Json
  | arr (xs : List Json) : Json
  | obj (kvs : List (String × Json)) : Json

/-- JSON of a `User`, keys from the struct tags. -/
def User.toJson (u : User) : Json :=
  .obj [("name", .str u.Name), ("email", .str u.Email), ("location", .str u.Location)]

/-- JSON of an `infoResponse`. -/
def infoResponse.toJson (r : infoResponse) : Json :=
  .obj [("info", .str r.Message)]

/-- JSON of an `errorResponse`. -/
def errorResponse.toJson (r : errorResponse) : Json :=
  .obj [("error", .str r.Message)]

/-- JSON of a `*User`: a nil pointer encodes as `null`. -/
def marshalUser : Option User → Json
  | none => .null
  | some u => u.toJson

/-- JSON of a `*[]User`: a nil pointer and a pointer to the nil slice both
encode as `null`; a non-nil slice encodes as an array. -/
def marshalUsers : Option (Slice User) → Json
  | none => .null
  | some .nil => .null
  | some (.elems xs) => .arr (xs.map User.toJson)

/-! ## The database behind `database/sql` -/

/-- The statements the source passes to `db.Exec`, with their bound
parameters in the order of the `?` marks. -/
inductive ExecStmt where
  | insert (name email location : String) : ExecStmt
  | update (name email location key : String) : ExecStmt
  | delete (key : String) : ExecStmt
deriving DecidableEq, Repr

/-- The statements the source passes to `db.Query` and `db.QueryRow`. -/
inductive QueryStmt where
  | all : QueryStmt
  | byName (name : String) : QueryStmt
deriving DecidableEq, Repr

/-- SQL text of an `Exec` statement, as written in the source. -/
def ExecStmt.text : ExecStmt → String
  | .insert _ _ _ => "INSERT INTO users (name, email, location) VALUES (?, ?, ?)"
  | .update _ _ _ _ => "UPDATE users SET name = ?, email = ?, location = ? where name = ?"
  | .delete _ => "DELETE FROM users WHERE name = ?"

/-- Bound parameters of an `Exec` statement. -/
def ExecStmt.args : ExecStmt → List String
  | .insert n e l => [n, e, l]
  | .update n e l k => [n, e, l, k]
  | .delete k => [k]

/-- SQL text of a query, as written in the source. -/
def QueryStmt.text : QueryStmt → String
  | .all => "SELECT * FROM users"
  | .byName _ => "SELECT * FROM users WHERE name = ?"

/-- Bound parameters of a query. -/
def QueryStmt.args : QueryStmt → List String
  | .all => []
  | .byName n => [n]

/-- The collation of column `name`: how MySQL decides `name = ?` for a stored
name and a bound parameter.  It belongs to the table definition, which is not
in the repository.  All that is assumed of it is that a string compares equal
to itself. -/
structure Collation where
  same : String → String → Bool
  refl : ∀ s : String, same s s = true

/-- A binary collation (such as `utf8mb4_bin`): names compare equal when they
are the same string. -/
def Collation.binary : Collation :=
  { same := fun a b => decide (a = b), refl := by simp }

/-- The characters of a string with the letters `A` to `Z` turned to lower
case. -/
def foldCase (s : String) : List Char := s.data.map Char.toLower

/-- A case-insensitive collation: names compare equal when they differ at most
in the case of the letters `A` to `Z`, as under the default collations of
MySQL. -/
def Collation.caseInsensitive : Collation :=
  { same := fun a b => decide (foldCase a = foldCase b), refl := by simp }

/-- The SQL predicate `name = ?` on a row under the collation of the column:
a `NULL` name matches nothing, a stored name matches when the collation
compares it equal to the bound parameter. -/
def Row.nameIs (coll : Collation) (key : String) (r : Row) : Bool :=
  match r.name with
  | none => false
  | some s => coll.same s key

/-- The row an `UPDATE ... SET name = ?, email = ?, location = ?` leaves. -/
def Row.set (r : Row) (name email location : String) : Row :=
  { r with name := some name, email := some email, location := some location }

/-- Semantics of `db.Exec`: the new table and the number of affected rows, or
the driver error (then the table is as before).  `INSERT` appends a row with
the next id; `UPDATE` rewrites the rows matching the key and counts the rows
it changed; `DELETE` drops the rows matching the key and counts them.  The
key is matched under the collation `coll`. -/
def Exec (coll : Collation) (fault : Option String) (db : Db) (s : ExecStmt) :
    Except String (Db × Nat) :=
  match fault with
  | some e => .error e
  | none =>
    match s with
    | .insert n e l =>
      .ok ({ rows := db.rows ++ [⟨db.nextId, some n, some e, some l⟩],
             nextId := db.nextId + 1 }, 1)
    | .update n e l k =>
      .ok ({ db with rows := db.rows.map fun r => if r.nameIs coll k then r.set n e l else r },
           (db.rows.filter fun r => r.nameIs coll k && decide (r.set n e l ≠ r)).length)
    | .delete k =>
      .ok ({ db with rows := db.rows.filter fun r => !r.nameIs coll k },
           (db.rows.filter fun r => r.nameIs coll k).length)

/-- Semantics of `db.Query`: the selected rows in storage order, or the
driver error. -/
def Query (coll : Collation) (fault : Option String) (db : Db) (q : QueryStmt) :
    Except String (List Row) :=
  match fault with
  | some e => .error e
  | none =>
    match q with
    | .all => .ok db.rows
    | .byName n => .ok (db.rows.filter fun r => r.nameIs coll n)

/-- Semantics of `db.QueryRow`: the first selected row.  A driver error and an
empty result are both deferred to `Scan`, which then returns the driver error,
respectively `sql.ErrNoRows`. -/
def QueryRow (coll : Collation) (fault : Option String) (db : Db) (q : QueryStmt) :
    Except String Row :=
  match Query coll fault db q with
  | .error e => .error e
  | .ok [] => .error "sql: no rows in result set"
  | .ok (r :: _) => .ok r

/-- Result of `Scan(&userid, &user.Name, &user.Email, &user.Location)` on a
row: the id and the `User`, or the error of the first column that is `NULL`
(a `NULL` cannot be stored in a Go `string`). -/
def scanRow (r : Row) : Except String (Int × User) :=
  match r.name with
  | none => .error "sql: Scan error on column index 1, name \"name\": converting NULL to string is unsupported"
  | some n =>
    match r.email with
    | none => .error "sql: Scan error on column index 2, name \"email\": converting NULL to string is unsupported"
    | some e =>
      match r.location with
      | none => .error "sql: Scan error on column index 3, name \"location\": converting NULL to string is unsupported"
      | some l => .ok (r.id, ⟨n, e, l⟩)

/-! ## Process state -/

/-- What a run of the service can observe outside the HTTP response: the
table behind the global `db`, the statements handed to the driver so far
(SQL text and bound parameters, oldest first), and the lines written by
`log.Println` (without timestamp). -/
structure World where
  db : Db
  issued : List (String × List String)
  logged : List String
deriving DecidableEq, Repr

/-- Go `log.Println(parts...)`: the operands separated by one space. -/
def World.Println (w : World) (parts : List String) : World :=
  { w with logged := w.logged ++ [" ".intercalate parts] }

/-- The global `db.Exec(query, args...)`: records the statement, runs it. -/
def World.Exec (w : World) (coll : Collation) (fault : Option String) (s : ExecStmt) :
    World × Except String Nat :=
  let w1 := { w with issued := w.issued ++ [(s.text, s.args)] }
  match GoMySQLCURD.Exec coll fault w.db s with
  | .error e => (w1, .error e)
  | .ok (db1, n) => ({ w1 with db := db1 }, .ok n)

/-- The global `db.Query(query)`: records the statement, runs it. -/
def World.Query (w : World) (coll : Collation) (fault : Option String) (q : QueryStmt) :
    World × Except String (List Row) :=
  ({ w with issued := w.issued ++ [(q.text, q.args)] }, GoMySQLCURD.Query coll fault w.db q)

/-- The global `db.QueryRow(query, args...)`: records the statement, runs it. -/
def World.QueryRow (w : World) (coll : Collation) (fault : Option String) (q : QueryStmt) :
    World × Except String Row :=
  ({ w with issued := w.issued ++ [(q.text, q.args)] }, GoMySQLCURD.QueryRow coll fault w.db q)

/-! ## Storage accessors (`main.go` 33-104) -/

/-- Insert new user in db (`main.go` 34-42). -/
def insertUserdb (coll : Collation) (fault : Option String) (w : World) (newUser : User) :
    World × Option String :=
  match w.Exec coll fault (.insert newUser.Name newUser.Email newUser.Location) with
  | (w1, .error err) => (w1.Println ["db insert: ", err], some "failed to add the user")
  | (w1, .ok _) => (w1, none)

/-- The loop `for rows.Next()` of `getAllUsers` (`main.go` 52-62): scans the
remaining rows into `users`; the first row that fails to scan ends the call
with a nil result. -/
def getAllUsers.loop (w : World) : List Row → Slice User →
    World × Option (Slice User) × Option String
  | [], users => (w, some users, none)
  | r :: rest, users =>
    match scanRow r with
    | .error err =>
      (w.Println ["db get: failed to scan the values from row object,\n\t" ++ err],
        none, some "failed to scan the values from db")
    | .ok (_, user) => getAllUsers.loop w rest (users.append user)

/-- Get all users from db (`main.go` 45-64).  `var users []User` starts as
the nil slice. -/
def getAllUsers (coll : Collation) (fault : Option String) (w : World) :
    World × Option (Slice User) × Option String :=
  match w.Query coll fault .all with
  | (w1, .error err) => (w1, none, some err)
  | (w1, .ok rows) => getAllUsers.loop w1 rows .nil

/-- Get a user from db using given name (`main.go` 67-77). -/
def getaUserdb (coll : Collation) (fault : Option String) (w : World) (name : String) :
    World × Option User × Option String :=
  match w.QueryRow coll fault (.byName name) with
  | (w1, row) =>
    match row.bind scanRow with
    | .error err =>
      (w1.Println ["db get: failed to parse the db row,\n\t" ++ err], none,
        some "invalid username, failed to get user information from db")
    | .ok (_, user) => (w1, some user, none)

/-- Update user in db (`main.go` 80-88): the name in the `SET` list and the
name in the `where` clause are both `user.Name`. -/
def updateUserdb (coll : Collation) (fault : Option String) (w : World) (user : User) :
    World × Option String :=
  match w.Exec coll fault (.update user.Name user.Email user.Location user.Name) with
  | (w1, .error err) =>
    (w1.Println ["db update: ", err], some "failed to update given user details")
  | (w1, .ok _) => (w1, none)

/-- Remove user from db (`main.go` 91-104). -/
def removeUserdb (coll : Collation) (fault : Option String) (w : World) (userName : String) :
    World × Option String :=
  match w.Exec coll fault (.delete userName) with
  | (w1, .error err) => (w1.Println ["db remove: ", err], some "failed to remove the user")
  | (w1, .ok resp) =>
    if resp = 0 then
      (w1.Println ["db remove: 0 row affected"],
        some ("given user `" ++ userName ++ "` not exists"))
    else (w1, none)

/-! ## Request handlers (`main.go` 106-201) -/

/-- One call of `c.JSON(code, obj)`: the status passed and the JSON of the
value passed. -/
structure Response where
  status : Nat
  body : Json

/-- The part of `gin.Context` the handlers use: the value of the path
parameter `username` (`c.Params.Get`, `none` when it is missing), the outcome
of decoding the request body into a `User` (`c.BindJSON`, the decoder's
error text when it fails), and the `c.JSON` calls made so far, oldest first. -/
structure Context where
  username : Option String
  body : Except String User
  written : List Response

/-- Gin `c.JSON(code, obj)` with the JSON of `obj`. -/
def Context.JSON (c : Context) (code : Nat) (obj : Json) : Context :=
  { c with written := c.written ++ [⟨code, obj⟩] }

/-- Status `http.StatusOK`. -/
def StatusOK : Nat := 200

/-- Status `http.StatusAccepted`. -/
def StatusAccepted : Nat := 202

/-- Status `http.StatusBadRequest`. -/
def StatusBadRequest : Nat := 400

/-- Status `http.StatusInternalServerError`. -/
def StatusInternalServerError : Nat := 500

/-- Show all the users from db (`main.go` 107-116).  The error branch has no
`return`: the call of line 115 follows it. -/
def getAllUsersHandler (coll : Collation) (fault : Option String) (w : World) (c : Context) :
    World × Context :=
  match getAllUsers coll fault w with
  | (w1, users, some err) =>
    let w2 := w1.Println ["failed to collect user informations from db" ++ err]
    let c1 := c.JSON StatusInternalServerError
      (errorResponse.toJson ⟨"failed to collect user informations from db"⟩)
    (w2, c1.JSON StatusOK (marshalUsers users))
  | (w1, users, none) => (w1, c.JSON StatusOK (marshalUsers users))

/-- Show the required user info (`main.go` 119-135). -/
def getUserHandler (coll : Collation) (fault : Option String) (w : World) (c : Context) :
    World × Context :=
  match c.username with
  | none =>
    (w, c.JSON StatusBadRequest (errorResponse.toJson ⟨"failed to prase the request"⟩))
  | some userName =>
    match getaUserdb coll fault w userName with
    | (w1, _, some err) =>
      (w1, c.JSON StatusInternalServerError (errorResponse.toJson ⟨err⟩))
    | (w1, user, none) => (w1, c.JSON StatusAccepted (marshalUser user))

/-- Go `fmt.Println` form of a `User` value, as `log.Println(newUser)`
prints it. -/
def User.print (u : User) : String :=
  "\x7b" ++ u.Name ++ " " ++ u.Email ++ " " ++ u.Location ++ "\x7d"

/-- Add new user (`main.go` 138-159). -/
def addNewUserHandler (coll : Collation) (fault : Option String) (w : World) (c : Context) :
    World × Context :=
  match c.body with
  | .error err =>
    (w, c.JSON StatusBadRequest
      (errorResponse.toJson ⟨"failed to parse the request, " ++ err⟩))
  | .ok newUser =>
    let w1 := w.Println [newUser.print]
    match insertUserdb coll fault w1 newUser with
    | (w2, some _) =>
      (w2, c.JSON StatusInternalServerError
        (errorResponse.toJson ⟨"failed to update user details in db, please contact admin"⟩))
    | (w2, none) =>
      (w2, c.JSON StatusAccepted
        (infoResponse.toJson ⟨"new user `" ++ newUser.Name ++ "` added successfully!"⟩))

/-- Update the user details (`main.go` 162-180). -/
def updateUserHandler (coll : Collation) (fault : Option String) (w : World) (c : Context) :
    World × Context :=
  match c.body with
  | .error err =>
    let w1 := w.Println ["update handler", err]
    (w1, c.JSON StatusBadRequest
      (errorResponse.toJson
        ⟨"faliled to prase the request, verify the given details and try again"⟩))
  | .ok user =>
    match updateUserdb coll fault w user with
    | (w1, some err) => (w1, c.JSON StatusInternalServerError (errorResponse.toJson ⟨err⟩))
    | (w1, none) =>
      (w1, c.JSON StatusAccepted
        (infoResponse.toJson ⟨"given user `" ++ user.Name ++ "` detail has been updated"⟩))

/-- Remove the user (`main.go` 183-201). -/
def removeUserHandler (coll : Collation) (fault : Option String) (w : World) (c : Context) :
    World × Context :=
  match c.username with
  | none => (w, c.JSON StatusBadRequest (errorResponse.toJson ⟨"invalid request"⟩))
  | some userName =>
    match removeUserdb coll fault w userName with
    | (w1, some err) => (w1, c.JSON StatusInternalServerError (errorResponse.toJson ⟨err⟩))
    | (w1, none) =>
      (w1, c.JSON StatusAccepted
        (infoResponse.toJson ⟨"given user `" ++ userName ++ "` removed"⟩))

/-! ## Sample states -/

/-- A table holding one user named alice. -/
def aliceDb : Db :=
  { rows := [⟨1, some "alice", some "a@x.com", some "nyc"⟩], nextId := 2 }

/-- A fresh process on `aliceDb`. -/
def aliceWorld : World := { db := aliceDb, issued := [], logged := [] }

/-- A fresh process on the empty table. -/
def emptyWorld : World := { db := { rows := [], nextId := 1 }, issued := [], logged := [] }

/-- A request carrying path parameter `name` and no decodable body. -/
def pathRequest (name : String) : Context :=
  { username := some name, body := .error "EOF", written := [] }

/-- A request carrying the JSON body of `u` and no path parameter. -/
def bodyRequest (u : User) : Context :=
  { username := none, body := .ok u, written := [] }

/-- A table in which two rows share the name alice, the older one first. -/
def twoAliceDb : Db :=
  { rows := [⟨1, some "alice", some "a@x.com", some "nyc"⟩,
             ⟨2, some "bob", some "b@x.com", some "rome"⟩,
             ⟨3, some "alice", some "other@x.com", some "oslo"⟩],
    nextId := 4 }

/-- A fresh process on `twoAliceDb`. -/
def twoAliceWorld : World := { db := twoAliceDb, issued := [], logged := [] }

/-- A request with neither path parameter nor decodable body. -/
def plainRequest : Context :=
  { username := none, body := .error "EOF", written := [] }

/-- A fresh process on a table whose second row has a `NULL` email. -/
def nullEmailWorld : World :=
  { db := { rows := [⟨1, some "alice", some "a@x.com", some "nyc"⟩,
                     ⟨2, some "bob", none, some "rome"⟩],
            nextId := 3 },
    issued := [], logged := [] }

/-- A table holding alice twice, once in lower and once in upper case. -/
def mixedCaseWorld : World :=
  { db := { rows := [⟨1, some "alice", some "a@x.com", some "nyc"⟩,
                     ⟨2, some "ALICE", some "big@x.com", some "oslo"⟩],
            nextId := 3 },
    issued := [], logged := [] }

/-! ## Facts about the table operations -/

/-- A row whose stored name is the key matches it under every collation. -/
theorem nameIs_of_name (coll : Collation) (n : String) (r : Row) (h : r.name = some n) :
    r.nameIs coll n = true := by
  simp [Row.nameIs, h, coll.refl]

theorem filter_nameIs_absent (coll : Collation) (rows : List Row) (n : String)
    (h : ∀ r ∈ rows, r.nameIs coll n = false) :
    rows.filter (fun r => r.nameIs coll n) = [] := by
  rw [List.filter_eq_nil_iff]
  intro r hr
  simp [h r hr]

theorem filter_not_nameIs_absent (coll : Collation) (rows : List Row) (n : String)
    (h : ∀ r ∈ rows, r.nameIs coll n = false) :
    rows.filter (fun r => !r.nameIs coll n) = rows := by
  rw [List.filter_eq_self]
  intro r hr
  simp [h r hr]

theorem filter_nameIs_present (coll : Collation) (rows : List Row) (n : String)
    (h : ∃ r ∈ rows, r.name = some n) :
    (rows.filter (fun r => r.nameIs coll n)).length ≠ 0 := by
  obtain ⟨r, hr, hn⟩ := h
  have hm : r ∈ rows.filter (fun r => r.nameIs coll n) :=
    List.mem_filter.mpr ⟨hr, nameIs_of_name coll n r hn⟩
  intro h0
  rw [List.length_eq_zero] at h0
  rw [h0] at hm
  exact List.not_mem_nil r hm

theorem filter_nameIs_after_delete (coll : Collation) (rows : List Row) (n : String) :
    (rows.filter (fun r => !r.nameIs coll n)).filter (fun r => r.nameIs coll n) = [] := by
  rw [List.filter_eq_nil_iff]
  intro r hr
  have := (List.mem_filter.mp hr).2
  simpa using this

/-- The lookup of a name no row matches ends in the not-found error, whatever
the driver reports. -/
theorem getaUserdb_no_match (coll : Collation) (fault : Option String) (w : World)
    (n : String) (h : w.db.rows.filter (fun r => r.nameIs coll n) = []) :
    (getaUserdb coll fault w n).2 =
      (none, some "invalid username, failed to get user information from db") := by
  cases fault <;> simp [getaUserdb, World.QueryRow, QueryRow, Query, h, Except.bind]

/-- Effect of an executed `DELETE` on the process state. -/
theorem removeUserdb_db (coll : Collation) (w : World) (n : String) :
    (removeUserdb coll none w n).1.db =
      { w.db with rows := w.db.rows.filter fun r => !r.nameIs coll n } := by
  unfold removeUserdb
  simp only [World.Exec, Exec]
  split <;> rfl

/-- C2, counterexample. Under a case-insensitive collation, on the table
holding the one row alice, no row has the name `Alice`, yet
`removeUserdb "Alice"` returns nil and removes the row, and
`removeUserHandler` answers 202 with the success envelope. -/
theorem removeUserdb_other_case :
    (∀ r ∈ aliceWorld.db.rows, r.name ≠ some "Alice")
    ∧ (removeUserdb Collation.caseInsensitive none aliceWorld "Alice").2 = none
    ∧ (removeUserdb Collation.caseInsensitive none aliceWorld "Alice").1.db.rows = []
    ∧ (removeUserHandler Collation.caseInsensitive none aliceWorld (pathRequest "Alice")).2.written
        = [⟨202, infoResponse.toJson ⟨"given user `Alice` removed"⟩⟩] := by
  refine ⟨by decide, by decide, by decide, rfl⟩

/-- C2, amended. Delete of an absent name: when no row has a name that the
collation of the column compares equal to `n` and the `DELETE` is executed,
`removeUserdb n` returns the error "given user `n` not exists", the table is
as before, and `removeUserHandler` adds exactly one response, status 500 with
the error envelope carrying that message. -/
theorem removeUserdb_absent_name (coll : Collation) (w : World) (n : String)
    (h : ∀ r ∈ w.db.rows, r.nameIs coll n = false) :
    (removeUserdb coll none w n).2 = some ("given user `" ++ n ++ "` not exists")
    ∧ (removeUserdb coll none w n).1.db = w.db
    ∧ ∀ c : Context, c.username = some n →
        (removeUserHandler coll none w c).2.written =
          c.written ++ [⟨500, errorResponse.toJson ⟨"given user `" ++ n ++ "` not exists"⟩⟩]
        ∧ (removeUserHandler coll none w c).1.db = w.db := by
  have hdb : (removeUserdb coll none w n).1.db = w.db := by
    rw [removeUserdb_db, filter_not_nameIs_absent _ _ _ h]
  have herr : (removeUserdb coll none w n).2 =
      some ("given user `" ++ n ++ "` not exists") := by
    simp [removeUserdb, World.Exec, Exec, filter_nameIs_absent _ _ _ h]
  refine ⟨herr, hdb, ?_⟩
  intro c hc
  unfold removeUserHandler
  rw [hc]
  simp only
  split
  · rename_i w1 err heq
    have h2 : (removeUserdb coll none w n).2 = some err := by rw [heq]
    have h1 : (removeUserdb coll none w n).1 = w1 := by rw [heq]
    rw [herr] at h2
    cases h2
    exact ⟨rfl, by rw [← h1]; exact hdb⟩
  · rename_i w1 heq
    have h2 : (removeUserdb coll none w n).2 = none := by rw [heq]
    rw [herr] at h2
    cases h2

theorem removeUserdb_absent_name_witness :
    (∀ r ∈ aliceWorld.db.rows, r.nameIs Collation.caseInsensitive "bob" = false)
    ∧ (removeUserdb Collation.caseInsensitive none aliceWorld "bob").2 =
        some ("given user `" ++ "bob" ++ "` not exists")
    ∧ (removeUserdb Collation.caseInsensitive none aliceWorld "bob").1.db = aliceWorld.db
    ∧ ∀ c : Context, c.username = some "bob" →
        (removeUserHandler Collation.caseInsensitive none aliceWorld c).2.written =
          c.written ++ [⟨500, errorResponse.toJson ⟨"given user `" ++ "bob" ++ "` not exists"⟩⟩]
        ∧ (removeUserHandler Collation.caseInsensitive none aliceWorld c).1.db = aliceWorld.db :=
  ⟨by decide, removeUserdb_absent_name Collation.caseInsensitive aliceWorld "bob" (by decide)⟩

/-- C3. Delete-then-get: when at least one row has name `n` (any number of
them) and the `DELETE` is executed, `removeUserdb n` returns nil, no row named
`n` is left, and a following `getaUserdb n` returns a nil user with the
not-found error; this under every collation of the column. -/
theorem removeUserdb_then_getaUserdb (coll : Collation) (w : World) (n : String)
    (h : ∃ r ∈ w.db.rows, r.name = some n) (fault : Option String) :
    (removeUserdb coll none w n).2 = none
    ∧ (∀ r ∈ (removeUserdb coll none w n).1.db.rows, r.name ≠ some n)
    ∧ (getaUserdb coll fault (removeUserdb coll none w n).1 n).2 =
        (none, some "invalid username, failed to get user information from db") := by
  refine ⟨?_, ?_, ?_⟩
  · simp [removeUserdb, World.Exec, Exec, filter_nameIs_present coll _ _ h]
  · rw [removeUserdb_db]
    intro r hr hn
    have := (List.mem_filter.mp hr).2
    simp [nameIs_of_name coll n r hn] at this
  · apply getaUserdb_no_match
    rw [removeUserdb_db]
    exact filter_nameIs_after_delete _ _ _

theorem removeUserdb_then_getaUserdb_witness :
    (∃ r ∈ twoAliceWorld.db.rows, r.name = some "alice")
    ∧ (removeUserdb Collation.caseInsensitive none twoAliceWorld "alice").2 = none
    ∧ (∀ r ∈ (removeUserdb Collation.caseInsensitive none twoAliceWorld "alice").1.db.rows,
        r.name ≠ some "alice")
    ∧ (getaUserdb Collation.caseInsensitive none
          (removeUserdb Collation.caseInsensitive none twoAliceWorld "alice").1 "alice").2 =
        (none, some "invalid username, failed to get user information from db") :=
  ⟨by decide,
    removeUserdb_then_getaUserdb Collation.caseInsensitive twoAliceWorld "alice" (by decide) none⟩

/-- C4. Get of an absent name: when no row matches `n` (no stored name
compares equal to `n` under the collation of the column; in particular on the
empty table), `getaUserdb n` returns the error "invalid username, failed to
get user information from db"; and on every table and for every name the
returned user is nil exactly when the returned error is not nil. -/
theorem getaUserdb_absent_name (coll : Collation) (fault : Option String) (w : World)
    (n : String) :
    ((∀ r ∈ w.db.rows, r.nameIs coll n = false) →
      (getaUserdb coll fault w n).2 =
        (none, some "invalid username, failed to get user information from db"))
    ∧ ((getaUserdb coll fault w n).2.1 = none ↔ (getaUserdb coll fault w n).2.2 ≠ none) := by
  constructor
  · intro h
    exact getaUserdb_no_match coll fault w n (filter_nameIs_absent _ _ _ h)
  · unfold getaUserdb
    simp only
    split <;> simp

theorem getaUserdb_absent_name_witness :
    ((∀ r ∈ emptyWorld.db.rows, r.nameIs Collation.caseInsensitive "alice" = false)
      ∧ (getaUserdb Collation.caseInsensitive none emptyWorld "alice").2 =
          (none, some "invalid username, failed to get user information from db"))
    ∧ ((∀ r ∈ aliceWorld.db.rows, r.nameIs Collation.caseInsensitive "bob" = false)
      ∧ (getaUserdb Collation.caseInsensitive none aliceWorld "bob").2 =
          (none, some "invalid username, failed to get user information from db")) :=
  ⟨⟨by decide,
      (getaUserdb_absent_name Collation.caseInsensitive none emptyWorld "alice").1 (by decide)⟩,
    ⟨by decide,
      (getaUserdb_absent_name Collation.caseInsensitive none aliceWorld "bob").1 (by decide)⟩⟩

/-- Effect of `insertUserdb` when it returns nil: the statement was executed
and the new row stands last. -/
theorem insertUserdb_ok (coll : Collation) (fault : Option String) (w : World) (u : User)
    (hok : (insertUserdb coll fault w u).2 = none) :
    (insertUserdb coll fault w u).1.db.rows =
      w.db.rows ++ [⟨w.db.nextId, some u.Name, some u.Email, some u.Location⟩] := by
  cases fault with
  | some e => simp [insertUserdb, World.Exec, Exec] at hok
  | none => simp [insertUserdb, World.Exec, Exec]

/-- C1, counterexample. On a table that already holds a row named alice,
inserting another user named alice succeeds, and the lookup of alice then
returns the older row, whose email and location are not those inserted; so
under a binary and under a case-insensitive collation. -/
theorem insertUserdb_then_getaUserdb_duplicate :
    ((insertUserdb Collation.binary none aliceWorld ⟨"alice", "new@x.com", "sf"⟩).2 = none
      ∧ (getaUserdb Collation.binary none
            (insertUserdb Collation.binary none aliceWorld ⟨"alice", "new@x.com", "sf"⟩).1
            "alice").2 = (some ⟨"alice", "a@x.com", "nyc"⟩, none)
      ∧ ¬ (getaUserdb Collation.binary none
            (insertUserdb Collation.binary none aliceWorld ⟨"alice", "new@x.com", "sf"⟩).1
            "alice").2 = (some ⟨"alice", "new@x.com", "sf"⟩, none))
    ∧ ((insertUserdb Collation.caseInsensitive none aliceWorld
          ⟨"alice", "new@x.com", "sf"⟩).2 = none
      ∧ (getaUserdb Collation.caseInsensitive none
            (insertUserdb Collation.caseInsensitive none aliceWorld
              ⟨"alice", "new@x.com", "sf"⟩).1
            "alice").2 = (some ⟨"alice", "a@x.com", "nyc"⟩, none)
      ∧ ¬ (getaUserdb Collation.caseInsensitive none
            (insertUserdb Collation.caseInsensitive none aliceWorld
              ⟨"alice", "new@x.com", "sf"⟩).1
            "alice").2 = (some ⟨"alice", "new@x.com", "sf"⟩, none)) := by
  decide

/-- C1, amended. Create-then-get round trip on a fresh name: if no row has a
name that the collation of the column compares equal to `u.Name` and
`insertUserdb u` succeeds, then `getaUserdb u.Name`, its `SELECT` executed on
the resulting table, returns no error and a user equal to `u` in name, email
and location. -/
theorem insertUserdb_then_getaUserdb (coll : Collation) (fault : Option String) (w : World)
    (u : User) (hfresh : ∀ r ∈ w.db.rows, r.nameIs coll u.Name = false)
    (hok : (insertUserdb coll fault w u).2 = none) :
    (getaUserdb coll none (insertUserdb coll fault w u).1 u.Name).2 = (some u, none) := by
  have hrows := insertUserdb_ok coll fault w u hok
  have hsel : (insertUserdb coll fault w u).1.db.rows.filter (fun r => r.nameIs coll u.Name) =
      [⟨w.db.nextId, some u.Name, some u.Email, some u.Location⟩] := by
    rw [hrows, List.filter_append, filter_nameIs_absent _ _ _ hfresh]
    simp [Row.nameIs, coll.refl]
  simp [getaUserdb, World.QueryRow, QueryRow, Query, hsel, Except.bind, scanRow]

theorem insertUserdb_then_getaUserdb_witness :
    (∀ r ∈ twoAliceWorld.db.rows, r.nameIs Collation.caseInsensitive "carol" = false)
    ∧ (insertUserdb Collation.caseInsensitive none twoAliceWorld
        ⟨"carol", "c@x.com", "lima"⟩).2 = none
    ∧ (getaUserdb Collation.caseInsensitive none
        (insertUserdb Collation.caseInsensitive none twoAliceWorld
          ⟨"carol", "c@x.com", "lima"⟩).1
        "carol").2 = (some ⟨"carol", "c@x.com", "lima"⟩, none) :=
  ⟨by decide, by decide,
    insertUserdb_then_getaUserdb Collation.caseInsensitive none twoAliceWorld
      ⟨"carol", "c@x.com", "lima"⟩ (by decide) (by decide)⟩

/-- The table `updateUserdb` leaves: unchanged under a driver error, otherwise
the rows matching `u.Name` rewritten with the three fields of `u`. -/
theorem updateUserdb_db (coll : Collation) (fault : Option String) (w : World) (u : User) :
    (updateUserdb coll fault w u).1.db =
      match fault with
      | some _ => w.db
      | none =>
        { w.db with
          rows := w.db.rows.map fun r =>
            if r.nameIs coll u.Name then r.set u.Name u.Email u.Location else r } := by
  cases fault <;> simp [updateUserdb, World.Exec, Exec, World.Println]

/-- C5. `updateUserdb` can rename a row: a successful call overwrites name,
email and location of the rows whose current name matches the key `u.Name`
(in particular of every row whose name is `u.Name`), and since the name is
among the fields written, for some table and some input user (under a
case-insensitive collation, the table holding alice and the input `ALICE`) a
successful call leaves a row whose name differs from the name it had. -/
theorem updateUserdb_can_rename :
    (∀ (coll : Collation) (fault : Option String) (w : World) (u : User),
      (updateUserdb coll fault w u).2 = none →
        (updateUserdb coll fault w u).1.db.rows =
          (w.db.rows.map fun r =>
            if r.nameIs coll u.Name then
              { r with name := some u.Name, email := some u.Email, location := some u.Location }
            else r)
        ∧ ∀ r ∈ w.db.rows, r.name = some u.Name → r.nameIs coll u.Name = true)
    ∧ (∃ (coll : Collation) (w : World) (u : User),
        (updateUserdb coll none w u).2 = none
        ∧ ∃ (i : Nat) (before after : Row),
            w.db.rows[i]? = some before
            ∧ (updateUserdb coll none w u).1.db.rows[i]? = some after
            ∧ after.id = before.id ∧ after.name ≠ before.name) := by
  constructor
  · intro coll fault w u hok
    refine ⟨?_, fun r _ hr => nameIs_of_name coll u.Name r hr⟩
    cases fault with
    | some e => simp [updateUserdb, World.Exec, Exec] at hok
    | none =>
      rw [updateUserdb_db]
      rfl
  · refine ⟨Collation.caseInsensitive, aliceWorld, ⟨"ALICE", "a2@x.com", "sf"⟩, by decide, 0,
      ⟨1, some "alice", some "a@x.com", some "nyc"⟩,
      ⟨1, some "ALICE", some "a2@x.com", some "sf"⟩, by decide, by decide, rfl, by decide⟩

theorem updateUserdb_can_rename_witness :
    (updateUserdb Collation.caseInsensitive none aliceWorld ⟨"ALICE", "a2@x.com", "sf"⟩).2 = none
    ∧ (updateUserdb Collation.caseInsensitive none aliceWorld
          ⟨"ALICE", "a2@x.com", "sf"⟩).1.db.rows =
        (aliceWorld.db.rows.map fun r =>
          if r.nameIs Collation.caseInsensitive "ALICE" then
            { r with name := some "ALICE", email := some "a2@x.com", location := some "sf" }
          else r)
    ∧ (updateUserdb Collation.caseInsensitive none aliceWorld
          ⟨"ALICE", "a2@x.com", "sf"⟩).1.db.rows =
        [⟨1, some "ALICE", some "a2@x.com", some "sf"⟩] :=
  ⟨by decide,
    (updateUserdb_can_rename.1 Collation.caseInsensitive none aliceWorld
      ⟨"ALICE", "a2@x.com", "sf"⟩ (by decide)).1,
    by decide⟩

/-- The error and the result of `getAllUsers.loop` exclude each other: an
error comes with a nil result. -/
theorem getAllUsers_loop_error (w : World) (rows : List Row) (users : Slice User) :
    (getAllUsers.loop w rows users).2.2 ≠ none → (getAllUsers.loop w rows users).2.1 = none := by
  induction rows generalizing users with
  | nil => simp [getAllUsers.loop]
  | cons r rest ih =>
    unfold getAllUsers.loop
    split
    · simp
    · exact ih _

/-- An error of `getAllUsers` comes with a nil result. -/
theorem getAllUsers_error (coll : Collation) (fault : Option String) (w : World) :
    (getAllUsers coll fault w).2.2 ≠ none → (getAllUsers coll fault w).2.1 = none := by
  cases fault with
  | some e => simp [getAllUsers, World.Query, Query]
  | none =>
    simp only [getAllUsers, World.Query, Query]
    exact getAllUsers_loop_error _ _ _

/-- C6, counterexample. On the empty table `getAllUsers` returns a pointer to
the nil slice, and the one response of `getAllUsersHandler`, status 200, has
the JSON body `null`, not the empty array. -/
theorem getAllUsersHandler_empty_table_null :
    emptyWorld.db.rows = []
    ∧ (getAllUsers Collation.caseInsensitive none emptyWorld).2 = (some Slice.nil, none)
    ∧ (getAllUsersHandler Collation.caseInsensitive none emptyWorld plainRequest).2.written =
        [⟨200, Json.null⟩]
    ∧ ¬ (getAllUsersHandler Collation.caseInsensitive none emptyWorld plainRequest).2.written =
        [⟨200, Json.arr []⟩] := by
  refine ⟨rfl, rfl, rfl, ?_⟩
  intro h
  have h2 : (getAllUsersHandler Collation.caseInsensitive none emptyWorld
      plainRequest).2.written = [⟨200, Json.null⟩] := rfl
  rw [h2] at h
  simp at h

/-- C6, amended. List on an empty table: when the table has zero rows and the
`SELECT` is executed, `getAllUsers` returns no error and a non-nil pointer to
a slice of length zero (the nil slice), and `getAllUsersHandler` adds exactly
one response, status 200, whose JSON body is `null`. -/
theorem getAllUsers_empty_table (coll : Collation) (w : World) (c : Context)
    (h : w.db.rows = []) :
    (getAllUsers coll none w).2 = (some Slice.nil, none)
    ∧ (∃ s : Slice User, (getAllUsers coll none w).2.1 = some s ∧ s.len = 0)
    ∧ (getAllUsersHandler coll none w c).2.written = c.written ++ [⟨200, Json.null⟩]
    ∧ (getAllUsersHandler coll none w c).1.db = w.db := by
  have h1 : getAllUsers coll none w =
      ({ w with issued := w.issued ++ [("SELECT * FROM users", [])] }, some Slice.nil, none) := by
    simp [getAllUsers, World.Query, Query, h, getAllUsers.loop, QueryStmt.text, QueryStmt.args]
  refine ⟨by rw [h1], ⟨Slice.nil, by rw [h1], rfl⟩, ?_, ?_⟩
  · simp [getAllUsersHandler, h1, Context.JSON, marshalUsers, StatusOK]
  · simp [getAllUsersHandler, h1]

theorem getAllUsers_empty_table_witness :
    emptyWorld.db.rows = []
    ∧ (getAllUsers Collation.caseInsensitive none emptyWorld).2 = (some Slice.nil, none)
    ∧ (∃ s : Slice User,
        (getAllUsers Collation.caseInsensitive none emptyWorld).2.1 = some s ∧ s.len = 0)
    ∧ (getAllUsersHandler Collation.caseInsensitive none emptyWorld plainRequest).2.written =
        plainRequest.written ++ [⟨200, Json.null⟩]
    ∧ (getAllUsersHandler Collation.caseInsensitive none emptyWorld plainRequest).1.db =
        emptyWorld.db :=
  ⟨rfl, getAllUsers_empty_table Collation.caseInsensitive emptyWorld plainRequest rfl⟩

/-- C7, counterexample. Under a case-insensitive collation, on the table
holding the one row alice, no row has the name `ALICE`, yet `updateUserdb`
with the user `ALICE` rewrites that row: the call returns nil and the handler
answers 202, but the table is not the one before. -/
theorem updateUserdb_other_case :
    (∀ r ∈ aliceWorld.db.rows, r.name ≠ some "ALICE")
    ∧ (updateUserdb Collation.caseInsensitive none aliceWorld
        ⟨"ALICE", "a2@x.com", "sf"⟩).2 = none
    ∧ (updateUserdb Collation.caseInsensitive none aliceWorld
        ⟨"ALICE", "a2@x.com", "sf"⟩).1.db.rows = [⟨1, some "ALICE", some "a2@x.com", some "sf"⟩]
    ∧ ¬ (updateUserdb Collation.caseInsensitive none aliceWorld
        ⟨"ALICE", "a2@x.com", "sf"⟩).1.db = aliceWorld.db
    ∧ (updateUserHandler Collation.caseInsensitive none aliceWorld
        (bodyRequest ⟨"ALICE", "a2@x.com", "sf"⟩)).2.written =
          [⟨202, infoResponse.toJson ⟨"given user `ALICE` detail has been updated"⟩⟩] := by
  refine ⟨by decide, by decide, by decide, by decide, rfl⟩

/-- C7, amended. Update of an absent name reports success: when no row has a
name that the collation of the column compares equal to `u.Name` and the
`UPDATE` is executed, `updateUserdb u` returns nil, the table is as before,
and `updateUserHandler` adds exactly one response, status 202 with the success
envelope "given user `<u.Name>` detail has been updated". -/
theorem updateUserdb_absent_name (coll : Collation) (w : World) (u : User)
    (h : ∀ r ∈ w.db.rows, r.nameIs coll u.Name = false) :
    (updateUserdb coll none w u).2 = none
    ∧ (updateUserdb coll none w u).1.db = w.db
    ∧ ∀ c : Context, c.body = .ok u →
        (updateUserHandler coll none w c).2.written =
          c.written ++
            [⟨202, infoResponse.toJson ⟨"given user `" ++ u.Name ++ "` detail has been updated"⟩⟩]
        ∧ (updateUserHandler coll none w c).1.db = w.db := by
  have hmap : (w.db.rows.map fun r =>
      if r.nameIs coll u.Name then r.set u.Name u.Email u.Location else r) = w.db.rows := by
    conv => rhs; rw [← List.map_id w.db.rows]
    apply List.map_congr_left
    intro r hr
    simp [h r hr]
  have hdb : (updateUserdb coll none w u).1.db = w.db := by
    rw [updateUserdb_db]
    simp only [hmap]
  have hret : (updateUserdb coll none w u).2 = none := by
    simp [updateUserdb, World.Exec, Exec]
  refine ⟨hret, hdb, ?_⟩
  intro c hc
  unfold updateUserHandler
  rw [hc]
  simp only
  split
  · rename_i w1 err heq
    have h2 : (updateUserdb coll none w u).2 = some err := by rw [heq]
    rw [hret] at h2
    cases h2
  · rename_i w1 heq
    have h1 : (updateUserdb coll none w u).1 = w1 := by rw [heq]
    exact ⟨rfl, by rw [← h1]; exact hdb⟩

theorem updateUserdb_absent_name_witness :
    (∀ r ∈ aliceWorld.db.rows, r.nameIs Collation.caseInsensitive "bob" = false)
    ∧ (updateUserdb Collation.caseInsensitive none aliceWorld ⟨"bob", "b@x.com", "rome"⟩).2 = none
    ∧ (updateUserdb Collation.caseInsensitive none aliceWorld ⟨"bob", "b@x.com", "rome"⟩).1.db =
        aliceWorld.db
    ∧ ∀ c : Context, c.body = .ok ⟨"bob", "b@x.com", "rome"⟩ →
        (updateUserHandler Collation.caseInsensitive none aliceWorld c).2.written =
          c.written ++
            [⟨202, infoResponse.toJson ⟨"given user `" ++ "bob" ++ "` detail has been updated"⟩⟩]
        ∧ (updateUserHandler Collation.caseInsensitive none aliceWorld c).1.db = aliceWorld.db :=
  ⟨by decide,
    updateUserdb_absent_name Collation.caseInsensitive aliceWorld ⟨"bob", "b@x.com", "rome"⟩
      (by decide)⟩

/-- The executed lookup returns the first row selected when that row scans. -/
theorem getaUserdb_first (coll : Collation) (w : World) (n : String) (hd : Row)
    (tl : List Row) (u : User)
    (hsel : w.db.rows.filter (fun r => r.nameIs coll n) = hd :: tl)
    (hscan : scanRow hd = .ok (hd.id, u)) :
    (getaUserdb coll none w n).2 = (some u, none) := by
  simp [getaUserdb, World.QueryRow, QueryRow, Query, hsel, Except.bind, hscan]

/-- After the rows matching `n` are rewritten with `n`, `e`, `l`, the rows
selected by name `n` all carry these three values, and there is one when a row
was named `n`. -/
theorem filter_after_update (coll : Collation) (rows : List Row) (n e l : String)
    (h : ∃ r ∈ rows, r.name = some n) :
    ∃ hd tl, (rows.map fun r => if r.nameIs coll n then r.set n e l else r).filter
        (fun r => r.nameIs coll n) = hd :: tl
      ∧ scanRow hd = .ok (hd.id, ⟨n, e, l⟩) := by
  obtain ⟨r0, hr0, hn0⟩ := h
  have hm0 : r0.nameIs coll n = true := nameIs_of_name coll n r0 hn0
  have hset : ∀ r : Row, (r.set n e l).nameIs coll n = true := fun r =>
    nameIs_of_name coll n _ rfl
  have hmem : r0.set n e l ∈ (rows.map fun r => if r.nameIs coll n then r.set n e l else r).filter
      (fun r => r.nameIs coll n) := by
    apply List.mem_filter.mpr
    refine ⟨List.mem_map.mpr ⟨r0, hr0, by simp [hm0]⟩, hset r0⟩
  cases hsel : (rows.map fun r => if r.nameIs coll n then r.set n e l else r).filter
      (fun r => r.nameIs coll n) with
  | nil => rw [hsel] at hmem; exact absurd hmem (List.not_mem_nil _)
  | cons hd tl =>
    refine ⟨hd, tl, rfl, ?_⟩
    have hhd : hd ∈ (rows.map fun r => if r.nameIs coll n then r.set n e l else r).filter
        (fun r => r.nameIs coll n) := by rw [hsel]; exact List.mem_cons_self _ _
    obtain ⟨hmap, hname⟩ := List.mem_filter.mp hhd
    obtain ⟨r, _, hr⟩ := List.mem_map.mp hmap
    by_cases hrn : r.nameIs coll n = true
    · have : hd = r.set n e l := by rw [← hr]; simp [hrn]
      rw [this]
      simp [scanRow, Row.set]
    · have : hd = r := by rw [← hr]; simp [hrn]
      rw [this] at hname
      exact absurd hname hrn

/-- C8. Update-then-get: when at least one row is named `n` and
`updateUserHandler` with body `{n, e, l}` is successful (`updateUserdb`
returns nil), it adds exactly one response, status 202 with the success
envelope, and a following `getUserHandler` for `n`, its `SELECT` executed,
adds exactly one response, status 202 with the user `{n, e, l}`; this under
every collation of the column. -/
theorem updateUserHandler_then_getUserHandler (coll : Collation) (fault : Option String)
    (w : World) (n e l : String) (c c2 : Context)
    (hrow : ∃ r ∈ w.db.rows, r.name = some n)
    (hc : c.body = .ok ⟨n, e, l⟩) (hc2 : c2.username = some n)
    (hok : (updateUserdb coll fault w ⟨n, e, l⟩).2 = none) :
    (updateUserHandler coll fault w c).2.written =
        c.written ++
          [⟨202, infoResponse.toJson ⟨"given user `" ++ n ++ "` detail has been updated"⟩⟩]
    ∧ (getUserHandler coll none (updateUserHandler coll fault w c).1 c2).2.written =
        c2.written ++ [⟨202, User.toJson ⟨n, e, l⟩⟩] := by
  cases fault with
  | some err => simp [updateUserdb, World.Exec, Exec] at hok
  | none =>
    have hupd : updateUserHandler coll none w c =
        ((updateUserdb coll none w ⟨n, e, l⟩).1,
          c.JSON StatusAccepted
            (infoResponse.toJson ⟨"given user `" ++ n ++ "` detail has been updated"⟩)) := by
      simp [updateUserHandler, hc, updateUserdb, World.Exec, Exec]
    obtain ⟨hd, tl, hsel, hscan⟩ := filter_after_update coll w.db.rows n e l hrow
    have hget : (getaUserdb coll none (updateUserdb coll none w ⟨n, e, l⟩).1 n).2 =
        (some ⟨n, e, l⟩, none) := by
      apply getaUserdb_first coll _ n hd tl _ _ hscan
      rw [updateUserdb_db]
      exact hsel
    rw [hupd]
    refine ⟨rfl, ?_⟩
    unfold getUserHandler
    rw [hc2]
    simp only
    split
    · rename_i w1 u1 err heq
      have h2 : (getaUserdb coll none (updateUserdb coll none w ⟨n, e, l⟩).1 n).2 =
          (u1, some err) := by
        rw [heq]
      rw [hget] at h2
      cases h2
    · rename_i w1 u1 heq
      have h2 : (getaUserdb coll none (updateUserdb coll none w ⟨n, e, l⟩).1 n).2 =
          (u1, none) := by
        rw [heq]
      rw [hget] at h2
      cases h2
      rfl

theorem updateUserHandler_then_getUserHandler_witness :
    (∃ r ∈ mixedCaseWorld.db.rows, r.name = some "alice")
    ∧ (bodyRequest ⟨"alice", "a2@x.com", "sf"⟩).body = .ok ⟨"alice", "a2@x.com", "sf"⟩
    ∧ (pathRequest "alice").username = some "alice"
    ∧ (updateUserdb Collation.caseInsensitive none mixedCaseWorld
        ⟨"alice", "a2@x.com", "sf"⟩).2 = none
    ∧ (updateUserHandler Collation.caseInsensitive none mixedCaseWorld
        (bodyRequest ⟨"alice", "a2@x.com", "sf"⟩)).2.written =
        (bodyRequest ⟨"alice", "a2@x.com", "sf"⟩).written ++
          [⟨202, infoResponse.toJson ⟨"given user `" ++ "alice" ++ "` detail has been updated"⟩⟩]
    ∧ (getUserHandler Collation.caseInsensitive none
          (updateUserHandler Collation.caseInsensitive none mixedCaseWorld
            (bodyRequest ⟨"alice", "a2@x.com", "sf"⟩)).1
          (pathRequest "alice")).2.written =
        (pathRequest "alice").written ++ [⟨202, User.toJson ⟨"alice", "a2@x.com", "sf"⟩⟩] :=
  ⟨by decide, rfl, rfl, by decide,
    updateUserHandler_then_getUserHandler Collation.caseInsensitive none mixedCaseWorld
      "alice" "a2@x.com" "sf"
      (bodyRequest ⟨"alice", "a2@x.com", "sf"⟩) (pathRequest "alice")
      (by decide) rfl rfl (by decide)⟩

/-- C9. Rejected input never reaches storage: when the body fails to decode
in `addNewUserHandler` or `updateUserHandler`, or the `username` parameter is
missing in `getUserHandler` or `removeUserHandler`, the handler adds exactly
one response, status 400 with an error envelope, hands no statement to the
driver, and leaves the table as it was. -/
theorem rejected_input_untouched_storage (coll : Collation) (fault : Option String)
    (w : World) (c : Context) :
    (∀ err, c.body = .error err →
      ((addNewUserHandler coll fault w c).2.written =
          c.written ++ [⟨400, errorResponse.toJson ⟨"failed to parse the request, " ++ err⟩⟩]
        ∧ (addNewUserHandler coll fault w c).1.issued = w.issued
        ∧ (addNewUserHandler coll fault w c).1.db = w.db)
      ∧ ((updateUserHandler coll fault w c).2.written =
          c.written ++ [⟨400, errorResponse.toJson
            ⟨"faliled to prase the request, verify the given details and try again"⟩⟩]
        ∧ (updateUserHandler coll fault w c).1.issued = w.issued
        ∧ (updateUserHandler coll fault w c).1.db = w.db))
    ∧ (c.username = none →
      ((getUserHandler coll fault w c).2.written =
          c.written ++ [⟨400, errorResponse.toJson ⟨"failed to prase the request"⟩⟩]
        ∧ (getUserHandler coll fault w c).1.issued = w.issued
        ∧ (getUserHandler coll fault w c).1.db = w.db)
      ∧ ((removeUserHandler coll fault w c).2.written =
          c.written ++ [⟨400, errorResponse.toJson ⟨"invalid request"⟩⟩]
        ∧ (removeUserHandler coll fault w c).1.issued = w.issued
        ∧ (removeUserHandler coll fault w c).1.db = w.db)) := by
  constructor
  · intro err herr
    simp [addNewUserHandler, updateUserHandler, herr, Context.JSON, World.Println,
      StatusBadRequest]
  · intro hnone
    simp [getUserHandler, removeUserHandler, hnone, Context.JSON, StatusBadRequest]

theorem rejected_input_untouched_storage_witness :
    (pathRequest "alice").body = .error "EOF"
    ∧ plainRequest.username = none
    ∧ (addNewUserHandler Collation.caseInsensitive none aliceWorld
        (pathRequest "alice")).2.written =
        (pathRequest "alice").written ++
          [⟨400, errorResponse.toJson ⟨"failed to parse the request, " ++ "EOF"⟩⟩]
    ∧ (addNewUserHandler Collation.caseInsensitive none aliceWorld
        (pathRequest "alice")).1.issued = aliceWorld.issued
    ∧ (removeUserHandler Collation.caseInsensitive none aliceWorld plainRequest).2.written =
        plainRequest.written ++ [⟨400, errorResponse.toJson ⟨"invalid request"⟩⟩]
    ∧ (removeUserHandler Collation.caseInsensitive none aliceWorld plainRequest).1.db =
        aliceWorld.db :=
  ⟨rfl, rfl,
    (((rejected_input_untouched_storage Collation.caseInsensitive none aliceWorld
      (pathRequest "alice")).1 "EOF" rfl).1).1,
    (((rejected_input_untouched_storage Collation.caseInsensitive none aliceWorld
      (pathRequest "alice")).1 "EOF" rfl).1).2.1,
    (((rejected_input_untouched_storage Collation.caseInsensitive none aliceWorld
      plainRequest).2 rfl).2).1,
    (((rejected_input_untouched_storage Collation.caseInsensitive none aliceWorld
      plainRequest).2 rfl).2).2.2⟩

/-- C10. List-handler double write: whenever `getAllUsers` returns an error
(its result is then nil), `getAllUsersHandler` adds the 500 error envelope
"failed to collect user informations from db" and, going on, a second
response of status 200 carrying the nil result, JSON `null`; whenever
`getAllUsers` succeeds it adds exactly one response, status 200 with the
users. -/
theorem getAllUsersHandler_writes (coll : Collation) (fault : Option String) (w : World)
    (c : Context) :
    ((getAllUsers coll fault w).2.2 ≠ none →
      (getAllUsers coll fault w).2.1 = none
      ∧ (getAllUsersHandler coll fault w c).2.written =
          c.written ++
            [⟨500, errorResponse.toJson ⟨"failed to collect user informations from db"⟩⟩,
             ⟨200, marshalUsers none⟩]
      ∧ marshalUsers none = Json.null)
    ∧ ((getAllUsers coll fault w).2.2 = none →
      (getAllUsersHandler coll fault w c).2.written =
        c.written ++ [⟨200, marshalUsers (getAllUsers coll fault w).2.1⟩]) := by
  constructor
  · intro herr
    have hnil := getAllUsers_error coll fault w herr
    refine ⟨hnil, ?_, rfl⟩
    unfold getAllUsersHandler
    split
    · rename_i w1 users err heq
      rw [heq] at hnil
      simp only at hnil
      subst hnil
      simp [Context.JSON, StatusInternalServerError, StatusOK]
    · rename_i w1 users heq
      rw [heq] at herr
      exact absurd rfl herr
  · intro hok
    unfold getAllUsersHandler
    split
    · rename_i w1 users err heq
      rw [heq] at hok
      cases hok
    · rename_i w1 users heq
      rw [heq]
      simp [Context.JSON, StatusOK]

theorem getAllUsersHandler_writes_witness :
    (getAllUsers Collation.caseInsensitive none nullEmailWorld).2.2 ≠ none
    ∧ (getAllUsers Collation.caseInsensitive none twoAliceWorld).2.2 = none
    ∧ ((getAllUsers Collation.caseInsensitive none nullEmailWorld).2.1 = none
      ∧ (getAllUsersHandler Collation.caseInsensitive none nullEmailWorld plainRequest).2.written =
          plainRequest.written ++
            [⟨500, errorResponse.toJson ⟨"failed to collect user informations from db"⟩⟩,
             ⟨200, marshalUsers none⟩]
      ∧ marshalUsers none = Json.null)
    ∧ (getAllUsersHandler Collation.caseInsensitive none twoAliceWorld plainRequest).2.written =
        plainRequest.written ++
          [⟨200, marshalUsers (getAllUsers Collation.caseInsensitive none twoAliceWorld).2.1⟩] :=
  ⟨by decide, by decide,
    (getAllUsersHandler_writes Collation.caseInsensitive none nullEmailWorld plainRequest).1
      (by decide),
    (getAllUsersHandler_writes Collation.caseInsensitive none twoAliceWorld plainRequest).2
      (by decide)⟩

end GoMySQLCURD
